import Mathlib

/-!
Shallow embedding of the Raytracer repository (src/main.rs, src/cube.rs).

Machine `f32` arithmetic is idealised as exact rational arithmetic; the
square root used by vector normalisation and by Snell refraction is an
explicit function parameter `sq : ℚ → ℚ`, since ℚ has no square roots.
Division by zero yields 0 in ℚ rather than the IEEE ±∞ of the source, so
theorems about the slab method carry nonzero-direction-component
hypotheses where the IEEE behaviour would differ.  A Rust `panic!`
(`Option::unwrap` on `None`) is modelled by the shading functions
returning `none`.
-/

/-- 3-component vector, mirroring raylib's `Vector3` (components idealised
as ℚ instead of `f32`). -/
structure Vec3 where
  x : ℚ
  y : ℚ
  z : ℚ
deriving DecidableEq

instance : Add Vec3 := ⟨fun a b => ⟨a.x + b.x, a.y + b.y, a.z + b.z⟩⟩

instance : Sub Vec3 := ⟨fun a b => ⟨a.x - b.x, a.y - b.y, a.z - b.z⟩⟩

instance : Neg Vec3 := ⟨fun a => ⟨-a.x, -a.y, -a.z⟩⟩

/-- Componentwise product, as implemented by raylib's `Mul<Vector3>`. -/
instance : Mul Vec3 := ⟨fun a b => ⟨a.x * b.x, a.y * b.y, a.z * b.z⟩⟩

/-- Scalar product on the right, raylib's `Mul<f32>` for `Vector3`. -/
instance : HMul Vec3 ℚ Vec3 := ⟨fun a s => ⟨a.x * s, a.y * s, a.z * s⟩⟩

def Vec3.zero : Vec3 := ⟨0, 0, 0⟩

def Vec3.dot (a b : Vec3) : ℚ := a.x * b.x + a.y * b.y + a.z * b.z

def Vec3.cross (a b : Vec3) : Vec3 :=
  ⟨a.y * b.z - a.z * b.y, a.z * b.x - a.x * b.z, a.x * b.y - a.y * b.x⟩

/-- `Vector3::length`, with the square root supplied as `sq`. -/
def Vec3.length (sq : ℚ → ℚ) (v : Vec3) : ℚ := sq (v.dot v)

/-- `Vector3::normalized`: division of each component by the length
(division by a zero length yields the zero vector in the ℚ model). -/
def Vec3.normalized (sq : ℚ → ℚ) (v : Vec3) : Vec3 := v * (1 / Vec3.length sq v)

/-- The 4-channel albedo `[f32; 4]` of the material:
`a0` diffuse, `a1` specular, `a2` reflective, `a3` refractive weight. -/
structure Albedo where
  a0 : ℚ
  a1 : ℚ
  a2 : ℚ
  a3 : ℚ
deriving DecidableEq

/-- Modelled from the spec: `material.rs` is not under `src/`; §3 of the
spec gives the record {base_color, specular_exponent, albedo, refractive
index, optional texture/normal-map handles, emissive flag, emission
intensity, emission color}, which is exactly how `main.rs` and
`blocks.rs` use it.  The specular exponent is modelled as ℕ (the scene's
exponents are whole numbers; `powf` becomes monoid power). -/
structure Material where
  diffuse : Vec3
  specular : ℕ
  albedo : Albedo
  refractive_index : ℚ
  texture_id : Option String
  normal_map_id : Option String
  is_emissive : Bool
  emission_intensity : ℚ
  emission_color : Vec3
deriving DecidableEq

/-- Default material carried by the empty intersection sentinel; it is
never read, because every consumer first checks `is_intersecting`. -/
def Material.blank : Material :=
  ⟨Vec3.zero, 0, ⟨0, 0, 0, 0⟩, 0, none, none, false, 0, Vec3.zero⟩

/-- Modelled from the spec: `ray_intersect.rs` is not under `src/`; §3 of
the spec gives the `Intersect` record.  The sentinel's `+∞` distance is
irrelevant here (every consumer guards on `is_intersecting`), so the
sentinel stores 0. -/
structure Intersect where
  is_intersecting : Bool
  point : Vec3
  normal : Vec3
  distance : ℚ
  material : Material
  u : ℚ
  v : ℚ
deriving DecidableEq

def Intersect.empty : Intersect :=
  ⟨false, Vec3.zero, Vec3.zero, 0, Material.blank, 0, 0⟩

/-- `Cube` from src/cube.rs. -/
structure Cube where
  center : Vec3
  size : ℚ
  material : Material
deriving DecidableEq

/-- Modelled from the spec: raylib `Color` restricted to the three
channels the integrator reads (`light.rs` is not under `src/`). -/
structure LightColor where
  r : ℕ
  g : ℕ
  b : ℕ
deriving DecidableEq

/-- Modelled from the spec: `light.rs` is not under `src/`; §3 gives
{position, color in [0,255], scalar intensity}. -/
structure Light where
  position : Vec3
  color : LightColor
  intensity : ℚ

/-- Modelled from the spec: the texture collaborator's query interface
(§6): per registered handle, image dimensions plus per-texel color,
alpha and (for normal maps) an optional decoded tangent-space normal. -/
structure TextureData where
  width : ℕ
  height : ℕ
  color : ℕ → ℕ → Vec3
  alpha : ℕ → ℕ → ℚ
  normal : ℕ → ℕ → Option Vec3

/-- Modelled from the spec: `textures.rs` is not under `src/`; the
manager is a finite registry of handles (§6). -/
structure TextureManager where
  textures : List (String × TextureData)

def TextureManager.get_texture (tm : TextureManager) (path : String) :
    Option TextureData :=
  (tm.textures.find? (fun e => e.1 = path)).map (fun e => e.2)

def TextureManager.get_pixel_color (tm : TextureManager) (path : String)
    (tx ty : ℕ) : Vec3 :=
  match tm.get_texture path with
  | some t => t.color tx ty
  | none => Vec3.zero

def TextureManager.get_pixel_alpha (tm : TextureManager) (path : String)
    (tx ty : ℕ) : ℚ :=
  match tm.get_texture path with
  | some t => t.alpha tx ty
  | none => 0

def TextureManager.get_normal_from_map (tm : TextureManager) (path : String)
    (tx ty : ℕ) : Option Vec3 :=
  match tm.get_texture path with
  | some t => t.normal tx ty
  | none => none

/-- `const ORIGIN_BIAS: f32 = 1e-4` from src/main.rs. -/
def ORIGIN_BIAS : ℚ := 1 / 10000

/-- `const SKYBOX_COLOR` from src/main.rs. -/
def SKYBOX_COLOR : Vec3 := ⟨26/100, 55/100, 89/100⟩

/-- The box's min corner, `center - half_size` on each axis. -/
def Cube.cmin (c : Cube) : Vec3 :=
  ⟨c.center.x - c.size / 2, c.center.y - c.size / 2, c.center.z - c.size / 2⟩

/-- The box's max corner, `center + half_size` on each axis. -/
def Cube.cmax (c : Cube) : Vec3 :=
  ⟨c.center.x + c.size / 2, c.center.y + c.size / 2, c.center.z + c.size / 2⟩

/-- The slab bounds `(tmin, tmax)` computed by `Cube::ray_intersect`
(src/cube.rs lines 49-63). -/
def slab_ts (c : Cube) (ray_origin ray_direction : Vec3) : ℚ × ℚ :=
  let pmin := c.cmin
  let pmax := c.cmax
  let invx := 1 / ray_direction.x
  let invy := 1 / ray_direction.y
  let invz := 1 / ray_direction.z
  let t1 := (pmin.x - ray_origin.x) * invx
  let t2 := (pmax.x - ray_origin.x) * invx
  let t3 := (pmin.y - ray_origin.y) * invy
  let t4 := (pmax.y - ray_origin.y) * invy
  let t5 := (pmin.z - ray_origin.z) * invz
  let t6 := (pmax.z - ray_origin.z) * invz
  (max (max (min t1 t2) (min t3 t4)) (min t5 t6),
   min (min (max t1 t2) (max t3 t4)) (max t5 t6))

def slab_tmin (c : Cube) (ray_origin ray_direction : Vec3) : ℚ :=
  (slab_ts c ray_origin ray_direction).1

def slab_tmax (c : Cube) (ray_origin ray_direction : Vec3) : ℚ :=
  (slab_ts c ray_origin ray_direction).2

/-- The six-way face-plane comparison of src/cube.rs lines 81-96, in the
source's fixed order X-min, X-max, Y-min, Y-max, Z-min, Z-max with
absolute tolerance `epsilon = 0.0001`. -/
def face_normal (point pmin pmax : Vec3) : Vec3 :=
  if |point.x - pmin.x| < 0.0001 then ⟨-1, 0, 0⟩
  else if |point.x - pmax.x| < 0.0001 then ⟨1, 0, 0⟩
  else if |point.y - pmin.y| < 0.0001 then ⟨0, -1, 0⟩
  else if |point.y - pmax.y| < 0.0001 then ⟨0, 1, 0⟩
  else if |point.z - pmin.z| < 0.0001 then ⟨0, 0, -1⟩
  else if |point.z - pmax.z| < 0.0001 then ⟨0, 0, 1⟩
  else Vec3.zero

/-- `Cube::get_uv` from src/cube.rs lines 12-31. -/
def Cube.get_uv (c : Cube) (point normal : Vec3) : ℚ × ℚ :=
  let lx := point.x - c.center.x
  let ly := point.y - c.center.y
  let lz := point.z - c.center.z
  let half_size := c.size / 2
  let ax := |normal.x|
  let ay := |normal.y|
  let az := |normal.z|
  if ax > ay ∧ ax > az then
    ((lz / half_size + 1) / 2, (ly / half_size + 1) / 2)
  else if ay > az then
    ((lx / half_size + 1) / 2, (lz / half_size + 1) / 2)
  else
    ((lx / half_size + 1) / 2, (ly / half_size + 1) / 2)

/-- `Cube::ray_intersect` from src/cube.rs lines 35-101 (slab method,
face-plane normal, per-face UV). -/
def Cube.ray_intersect (c : Cube) (ray_origin ray_direction : Vec3) :
    Intersect :=
  let ts := slab_ts c ray_origin ray_direction
  let tmin := ts.1
  let tmax := ts.2
  if tmax < 0 then Intersect.empty
  else if tmin > tmax then Intersect.empty
  else
    let t := if tmin > 0 then tmin else tmax
    let point := ray_origin + ray_direction * t
    let normal := face_normal point c.cmin c.cmax
    let uv := c.get_uv point normal
    ⟨true, point, normal, t, c.material, uv.1, uv.2⟩

/-- `offset_origin` from src/main.rs lines 37-44. -/
def offset_origin (i : Intersect) (direction : Vec3) : Vec3 :=
  let offset := i.normal * ORIGIN_BIAS
  if direction.dot i.normal < 0 then i.point - offset else i.point + offset

/-- `reflect` from src/main.rs lines 46-48. -/
def reflect (incident normal : Vec3) : Vec3 :=
  incident - normal * (2 * incident.dot normal)

/-- The clamped `incident·normal` computed at src/main.rs line 51:
its sign decides entering (≤ 0) versus exiting (> 0). -/
def refract_cosi (incident normal : Vec3) : ℚ :=
  min (max (incident.dot normal) (-1)) 1

/-- `refract` from src/main.rs lines 50-71: Snell's law with
entering/exiting decided by the sign of the clamped `incident·normal`;
`none` models total internal reflection (`k < 0`). -/
def refract (sq : ℚ → ℚ) (incident normal : Vec3)
    (refractive_index : ℚ) : Option Vec3 :=
  let cosi0 := refract_cosi incident normal
  let cosi := if cosi0 > 0 then cosi0 else -cosi0
  let etai : ℚ := if cosi0 > 0 then refractive_index else 1
  let etat : ℚ := if cosi0 > 0 then 1 else refractive_index
  let n := if cosi0 > 0 then -normal else normal
  let eta := etai / etat
  let k := 1 - eta * eta * (1 - cosi * cosi)
  if k < 0 then none
  else some (incident * eta + n * (eta * cosi - sq k))

/-- The discriminant `k` computed inside `refract` (src/main.rs line 64),
named so that total internal reflection can be talked about. -/
def refract_k (incident normal : Vec3) (refractive_index : ℚ) : ℚ :=
  let cosi0 := refract_cosi incident normal
  let cosi := if cosi0 > 0 then cosi0 else -cosi0
  let etai : ℚ := if cosi0 > 0 then refractive_index else 1
  let etat : ℚ := if cosi0 > 0 then 1 else refractive_index
  let eta := etai / etat
  1 - eta * eta * (1 - cosi * cosi)

/-- `cast_shadow` from src/main.rs lines 73-96: the loop with its early
`return 1.0` is `List.any`; emissive objects are skipped. -/
def cast_shadow (sq : ℚ → ℚ) (i : Intersect) (light : Light)
    (objects : List Cube) : ℚ :=
  let light_dir := Vec3.normalized sq (light.position - i.point)
  let light_distance := Vec3.length sq (light.position - i.point)
  let shadow_ray_origin := offset_origin i light_dir
  if objects.any (fun o =>
      !o.material.is_emissive &&
      (let si := Cube.ray_intersect o shadow_ray_origin light_dir
       si.is_intersecting && decide (si.distance < light_distance)))
  then 1 else 0

/-- The light's `Color` scaled to `[0,1]` floats (src/main.rs line 173). -/
def light_color_v3 (light : Light) : Vec3 :=
  ⟨(light.color.r : ℚ) / 255, (light.color.g : ℚ) / 255, (light.color.b : ℚ) / 255⟩

/-- The shading normal of src/main.rs lines 128-146: the geometric
normal, replaced by a tangent-frame-transformed normal-map sample when
the material carries a normal-map handle.  `none` models the `unwrap`
panic on an unregistered handle. -/
def shading_normal (sq : ℚ → ℚ) (tm : TextureManager) (i : Intersect) :
    Option Vec3 :=
  match i.material.normal_map_id with
  | none => some i.normal
  | some normal_map_path =>
    match tm.get_texture normal_map_path with
    | none => none
    | some texture =>
      let tx := (Int.floor (i.u * (texture.width : ℚ))).toNat
      let ty := (Int.floor (i.v * (texture.height : ℚ))).toNat
      match tm.get_normal_from_map normal_map_path tx ty with
      | none => some i.normal
      | some tex_normal =>
        let normal := i.normal
        let tangent := Vec3.normalized sq ⟨normal.y, -normal.x, 0⟩
        let bitangent := normal.cross tangent
        let tn : Vec3 :=
          ⟨tex_normal.x * tangent.x + tex_normal.y * bitangent.x + tex_normal.z * normal.x,
           tex_normal.x * tangent.y + tex_normal.y * bitangent.y + tex_normal.z * normal.y,
           tex_normal.x * tangent.z + tex_normal.y * bitangent.z + tex_normal.z * normal.z⟩
        some (Vec3.normalized sq tn)

/-- The diffuse color of src/main.rs lines 153-167: the flat material
color, or the texture sample alpha-blended with it.  `none` models the
`unwrap` panic on an unregistered handle. -/
def diffuse_color_of (tm : TextureManager) (i : Intersect) : Option Vec3 :=
  match i.material.texture_id with
  | none => some i.material.diffuse
  | some texture_path =>
    match tm.get_texture texture_path with
    | none => none
    | some texture =>
      let tx := (Int.floor (i.u * (texture.width : ℚ))).toNat
      let ty := (Int.floor (i.v * (texture.height : ℚ))).toNat
      let texture_color := tm.get_pixel_color texture_path tx ty
      let texture_alpha := tm.get_pixel_alpha texture_path tx ty
      some (i.material.diffuse * (1 - texture_alpha) + texture_color * texture_alpha)

/-- The Phong (diffuse + specular) term of src/main.rs lines 148-177,
already weighted by `albedo[0]` and `albedo[1]`. -/
def phong_of (sq : ℚ → ℚ) (light : Light) (objects : List Cube)
    (ray_origin : Vec3) (i : Intersect) (n dc : Vec3) : Vec3 :=
  let light_dir := Vec3.normalized sq (light.position - i.point)
  let view_dir := Vec3.normalized sq (ray_origin - i.point)
  let reflect_dir := Vec3.normalized sq (reflect (-light_dir) n)
  let shadow_intensity := cast_shadow sq i light objects
  let light_intensity := light.intensity * (1 - shadow_intensity)
  let diffuse_intensity := max (n.dot light_dir) 0 * light_intensity
  let diffuse := dc * diffuse_intensity
  let specular_intensity :=
    (max (view_dir.dot reflect_dir) 0) ^ i.material.specular * light_intensity
  let specular := light_color_v3 light * specular_intensity
  diffuse * i.material.albedo.a0 + specular * i.material.albedo.a1

/-- The inner occlusion scan of the emissive gather (src/main.rs lines
192-203): blocked iff some non-emissive object intersects the offset ray
closer than the emissive block. -/
def emissive_blocked (objects : List Cube) (origin dir : Vec3)
    (emissive_distance : ℚ) : Bool :=
  objects.any (fun other =>
    !other.material.is_emissive &&
    (let sc := Cube.ray_intersect other origin dir
     sc.is_intersecting && decide (sc.distance < emissive_distance)))

/-- The per-object contribution of the emissive gather: zero unless the
object is emissive, within the (0.01, 10) distance window, and
unoccluded; else the attenuated Lambert-style term of src/main.rs lines
205-211. -/
def emissive_term (sq : ℚ → ℚ) (objects : List Cube) (i : Intersect)
    (n dc : Vec3) (o : Cube) : Vec3 :=
  if o.material.is_emissive then
    let emissive_dir := Vec3.normalized sq (o.center - i.point)
    let emissive_distance := Vec3.length sq (o.center - i.point)
    if emissive_distance < 10 ∧ emissive_distance > 0.01 then
      if emissive_blocked objects (offset_origin i emissive_dir) emissive_dir
          emissive_distance then Vec3.zero
      else
        let attenuation := 1 / (1 + 0.1 * emissive_distance * emissive_distance)
        let emissive_intensity :=
          max (n.dot emissive_dir) 0 * o.material.emission_intensity * attenuation
        o.material.emission_color * emissive_intensity * dc
    else Vec3.zero
  else Vec3.zero

/-- The emissive-gather loop of src/main.rs lines 180-214, accumulating
into `emissive_light` exactly when the guards pass. -/
def emissive_gather (sq : ℚ → ℚ) (objects : List Cube) (i : Intersect)
    (n dc : Vec3) : Vec3 :=
  objects.foldl (fun acc o =>
    if o.material.is_emissive then
      let emissive_dir := Vec3.normalized sq (o.center - i.point)
      let emissive_distance := Vec3.length sq (o.center - i.point)
      if emissive_distance < 10 ∧ emissive_distance > 0.01 then
        if emissive_blocked objects (offset_origin i emissive_dir) emissive_dir
            emissive_distance then acc
        else
          let attenuation := 1 / (1 + 0.1 * emissive_distance * emissive_distance)
          let emissive_intensity :=
            max (n.dot emissive_dir) 0 * o.material.emission_intensity * attenuation
          acc + o.material.emission_color * emissive_intensity * dc
      else acc
    else acc) Vec3.zero

/-- The self-emission term of src/main.rs lines 218-236; `none` models
the `unwrap` panic on an unregistered texture handle. -/
def self_emission (tm : TextureManager) (i : Intersect) : Option Vec3 :=
  if i.material.is_emissive then
    let emission_base := i.material.emission_color * i.material.emission_intensity
    match i.material.texture_id with
    | none => some emission_base
    | some texture_path =>
      match tm.get_texture texture_path with
      | none => none
      | some texture =>
        let tx := (Int.floor (i.u * (texture.width : ℚ))).toNat
        let ty := (Int.floor (i.v * (texture.height : ℚ))).toNat
        some (emission_base * tm.get_pixel_color texture_path tx ty)
  else some Vec3.zero

/-- The (origin, direction) of the reflection child ray (src/main.rs
lines 238-245): present iff `albedo[2] > 0`. -/
def refl_child (sq : ℚ → ℚ) (i : Intersect) (ray_direction n : Vec3) :
    Option (Vec3 × Vec3) :=
  if i.material.albedo.a2 > 0 then
    let reflect_dir := Vec3.normalized sq (reflect ray_direction n)
    some (offset_origin i reflect_dir, reflect_dir)
  else none

/-- The (origin, direction) of the refraction child ray (src/main.rs
lines 247-259): present iff `albedo[3] > 0`; on total internal
reflection (`refract` returns `none`) the child is the reflection ray. -/
def refr_child (sq : ℚ → ℚ) (i : Intersect) (ray_direction n : Vec3) :
    Option (Vec3 × Vec3) :=
  if i.material.albedo.a3 > 0 then
    match refract sq ray_direction n i.material.refractive_index with
    | some refract_dir => some (offset_origin i refract_dir, refract_dir)
    | none =>
      let reflect_dir := Vec3.normalized sq (reflect ray_direction n)
      some (offset_origin i reflect_dir, reflect_dir)
  else none

/-- The nearest-hit scan of src/main.rs lines 110-119: fold keeping the
strictly closer intersection (`none` plays the `zbuffer = ∞`, not-yet-hit
state, so ties keep the earlier object). -/
def closest_step (o d : Vec3) (acc : Option Intersect) (c : Cube) :
    Option Intersect :=
  let i := Cube.ray_intersect c o d
  match acc with
  | none => if i.is_intersecting then some i else none
  | some j => if i.is_intersecting ∧ i.distance < j.distance then some i else some j

def closest_hit (objects : List Cube) (o d : Vec3) : Option Intersect :=
  objects.foldl (closest_step o d) none

/-- The color a child slot contributes: the recursive call when the
child ray exists, else the zero vector (`Vector3::zero()` in the
source). -/
def recur_color (child : Option (Vec3 × Vec3))
    (recur : Vec3 → Vec3 → Option Vec3) : Option Vec3 :=
  match child with
  | some od => recur od.1 od.2
  | none => some Vec3.zero

/-- Everything `cast_ray` does after the nearest hit is resolved
(src/main.rs lines 125-261), with the recursive calls abstracted as
`recur`; `none` models a texture-lookup panic. -/
def shade_body (sq : ℚ → ℚ) (tm : TextureManager) (light : Light)
    (objects : List Cube) (ray_origin ray_direction : Vec3) (i : Intersect)
    (recur : Vec3 → Vec3 → Option Vec3) : Option Vec3 :=
  (shading_normal sq tm i).bind (fun n =>
  (diffuse_color_of tm i).bind (fun dc =>
    let phong_color := phong_of sq light objects ray_origin i n dc
    let emissive_light := emissive_gather sq objects i n dc
    (self_emission tm i).bind (fun se =>
    (recur_color (refl_child sq i ray_direction n) recur).bind
      (fun reflect_color =>
    (recur_color (refr_child sq i ray_direction n) recur).bind
      (fun refract_color =>
    some (phong_color * (1 - i.material.albedo.a2 - i.material.albedo.a3)
          + reflect_color * i.material.albedo.a2
          + refract_color * i.material.albedo.a3
          + emissive_light + se))))))

/-- Fuel-indexed form of `cast_ray`.  The fuel is bookkeeping for Lean's
structural recursion only: `cast_ray` below instantiates it with
`4 - depth`, for which the fuel-0 branch coincides with the source's
`depth > 3` early return, so the depth check remains the real bound. -/
def cast_ray_fuel (sq : ℚ → ℚ) (tm : TextureManager) (light : Light)
    (objects : List Cube) :
    ℕ → Vec3 → Vec3 → ℕ → Option Vec3
  | 0, _, _, _ => some SKYBOX_COLOR
  | fuel + 1, ray_origin, ray_direction, depth =>
    if depth > 3 then some SKYBOX_COLOR
    else
      match closest_hit objects ray_origin ray_direction with
      | none => some SKYBOX_COLOR
      | some i =>
        shade_body sq tm light objects ray_origin ray_direction i
          (fun o' d' => cast_ray_fuel sq tm light objects fuel o' d' (depth + 1))

/-- `cast_ray` from src/main.rs lines 98-262. -/
def cast_ray (sq : ℚ → ℚ) (tm : TextureManager) (light : Light)
    (objects : List Cube) (ray_origin ray_direction : Vec3) (depth : ℕ) :
    Option Vec3 :=
  cast_ray_fuel sq tm light objects (4 - depth) ray_origin ray_direction depth

/-- The child rays a call spawns: reflection child then refraction
child. -/
def child_rays (sq : ℚ → ℚ) (i : Intersect) (ray_direction n : Vec3) :
    List (Vec3 × Vec3) :=
  (refl_child sq i ray_direction n).toList ++ (refr_child sq i ray_direction n).toList

/-- The child rays actually spawned at a given incoming ray: none on a
miss (or when the shading-normal lookup panics), else the reflection and
refraction children present. -/
def child_list (sq : ℚ → ℚ) (tm : TextureManager) (objects : List Cube)
    (ray_origin ray_direction : Vec3) : List (Vec3 × Vec3) :=
  match closest_hit objects ray_origin ray_direction with
  | none => []
  | some i =>
    match shading_normal sq tm i with
    | none => []
    | some n => child_rays sq i ray_direction n

/-- Fuel-indexed count of the calls at recursion level `lvl` in the call
tree rooted at a call with the given ray and `depth`, mirroring the
branching of `cast_ray_fuel` (a call whose shading normal lookup panics
spawns nothing). -/
def calls_fuel (sq : ℚ → ℚ) (tm : TextureManager) (light : Light)
    (objects : List Cube) :
    ℕ → Vec3 → Vec3 → ℕ → ℕ → ℕ
  | 0, _, _, depth, lvl => if depth = lvl then 1 else 0
  | fuel + 1, ray_origin, ray_direction, depth, lvl =>
    (if depth = lvl then 1 else 0) +
    (if depth > 3 then 0
     else ((child_list sq tm objects ray_origin ray_direction).map
        (fun od =>
          calls_fuel sq tm light objects fuel od.1 od.2 (depth + 1) lvl)).sum)

/-- Number of rays of the recursion tree of a `cast_ray` call that sit at
recursion level `lvl`, the call itself included. -/
def calls_at_level (sq : ℚ → ℚ) (tm : TextureManager) (light : Light)
    (objects : List Cube) (ray_origin ray_direction : Vec3)
    (depth lvl : ℕ) : ℕ :=
  calls_fuel sq tm light objects (4 - depth) ray_origin ray_direction depth lvl

/-- The six face-plane proximity tests of src/cube.rs lines 84-95,
indexed in the source's check order: 0 = X-min, 1 = X-max, 2 = Y-min,
3 = Y-max, 4 = Z-min, 5 = Z-max (indices ≥ 6 never match). -/
def face_matches (point pmin pmax : Vec3) (k : ℕ) : Prop :=
  match k with
  | 0 => |point.x - pmin.x| < 0.0001
  | 1 => |point.x - pmax.x| < 0.0001
  | 2 => |point.y - pmin.y| < 0.0001
  | 3 => |point.y - pmax.y| < 0.0001
  | 4 => |point.z - pmin.z| < 0.0001
  | 5 => |point.z - pmax.z| < 0.0001
  | _ + 6 => False

instance (point pmin pmax : Vec3) (k : ℕ) :
    Decidable (face_matches point pmin pmax k) := by
  unfold face_matches
  match k with
  | 0 | 1 | 2 | 3 | 4 | 5 => exact inferInstance
  | _ + 6 => exact inferInstance

/-- The outward unit normal assigned to each face, same indexing as
`face_matches`. -/
def outward_face_normal (k : ℕ) : Vec3 :=
  match k with
  | 0 => ⟨-1, 0, 0⟩
  | 1 => ⟨1, 0, 0⟩
  | 2 => ⟨0, -1, 0⟩
  | 3 => ⟨0, 1, 0⟩
  | 4 => ⟨0, 0, -1⟩
  | 5 => ⟨0, 0, 1⟩
  | _ + 6 => Vec3.zero

/-- Square-root table sufficient for the concrete scenes below (every
argument the scenes feed to `sq` is a perfect square). -/
def sq0 : ℚ → ℚ :=
  fun q => if q = 1 then 1 else if q = 9 then 3 else if q = 4/9 then 2/3 else 0

/-- Plain material: no textures, reflect and refract weights 4/5 each
(their sum exceeds 1 on purpose), refractive index 1. -/
def flat_mat : Material :=
  ⟨⟨1, 1, 1⟩, 2, ⟨1/2, 1/2, 4/5, 4/5⟩, 1, none, none, false, 0, Vec3.zero⟩

/-- Emissive material carrying a normal-map handle `"nm"`. -/
def em_mat : Material :=
  ⟨⟨1, 1, 1⟩, 1, ⟨0, 0, 0, 0⟩, 0, none, some "nm", true, 1, ⟨1, 1, 1⟩⟩

/-- Material referencing texture handle `"t"`. -/
def tex_mat : Material :=
  ⟨⟨1, 1, 1⟩, 1, ⟨1, 0, 0, 0⟩, 0, some "t", none, false, 0, Vec3.zero⟩

/-- Material referencing normal-map handle `"t"`. -/
def nm_mat : Material :=
  ⟨⟨1, 1, 1⟩, 1, ⟨1, 0, 0, 0⟩, 0, none, some "t", false, 0, Vec3.zero⟩

/-- 1×1 normal map whose decoded tangent-space normal is (0,0,-1). -/
def nm_data : TextureData :=
  ⟨1, 1, fun _ _ => Vec3.zero, fun _ _ => 0, fun _ _ => some ⟨0, 0, -1⟩⟩

/-- Texture manager registering only the `"nm"` normal map. -/
def tm_nm : TextureManager := ⟨[("nm", nm_data)]⟩

/-- Empty texture manager: no handle is registered. -/
def tm_empty : TextureManager := ⟨[]⟩

/-- Axis-aligned cube of side 2 centred at the origin with the plain
material. -/
def wcube : Cube := ⟨Vec3.zero, 2, flat_mat⟩

/-- Same cube with the emissive normal-mapped material. -/
def em_cube : Cube := ⟨Vec3.zero, 2, em_mat⟩

/-- Same cube with the unregistered-texture material. -/
def tex_cube : Cube := ⟨Vec3.zero, 2, tex_mat⟩

/-- Material with positive refract weight and refractive index 1/2, so
that the witness ray undergoes total internal reflection. -/
def tir_mat : Material :=
  ⟨⟨1, 1, 1⟩, 2, ⟨1/2, 1/2, 4/5, 4/5⟩, 1/2, none, none, false, 0, Vec3.zero⟩

/-- Same cube with the total-internal-reflection material. -/
def tir_cube : Cube := ⟨Vec3.zero, 2, tir_mat⟩

/-- White light of intensity 1 placed at (2,3,1). -/
def wlight : Light := ⟨⟨2, 3, 1⟩, ⟨255, 255, 255⟩, 1⟩

/-- Concrete ray origin used by the witnesses: it sends direction
`wdir` onto the top face of the origin-centred side-2 cube. -/
def worig : Vec3 := ⟨-2, 3, -1⟩

/-- Concrete unit ray direction (2/3, -2/3, 1/3); all components are
nonzero so the ℚ slab model agrees with the IEEE one. -/
def wdir : Vec3 := ⟨2/3, -2/3, 1/3⟩

/-- Second concrete ray (origin and direction with nonzero components)
hitting the top face of the side-2 cube at (0,1,0). -/
def eorig : Vec3 := ⟨-1/2, 2, -1/2⟩

def edir : Vec3 := ⟨1/2, -1, 1/2⟩

theorem Vec3.add_def (a b : Vec3) :
    a + b = ⟨a.x + b.x, a.y + b.y, a.z + b.z⟩ := rfl

theorem Vec3.addzero (a : Vec3) : a + Vec3.zero = a := by
  cases a
  simp [Vec3.add_def, Vec3.zero]

theorem Vec3.addassoc (a b c : Vec3) : a + b + c = a + (b + c) := by
  cases a; cases b; cases c
  simp only [Vec3.add_def, Vec3.mk.injEq]
  refine ⟨?_, ?_, ?_⟩ <;> ring

theorem ray_intersect_miss_iff (c : Cube) (o d : Vec3) :
    (Cube.ray_intersect c o d).is_intersecting = false ↔
      (slab_tmax c o d < 0 ∨ slab_tmin c o d > slab_tmax c o d) := by
  simp only [Cube.ray_intersect, slab_tmin, slab_tmax]
  split_ifs with h1 h2
  · simpa [Intersect.empty] using Or.inl h1
  · simpa [Intersect.empty] using Or.inr h2
  · simpa [Intersect.empty] using not_or.mpr ⟨h1, h2⟩

theorem ray_intersect_hit_fields (c : Cube) (o d : Vec3)
    (h : (Cube.ray_intersect c o d).is_intersecting = true) :
    (Cube.ray_intersect c o d).distance =
        (if slab_tmin c o d > 0 then slab_tmin c o d else slab_tmax c o d)
    ∧ (Cube.ray_intersect c o d).material = c.material
    ∧ (Cube.ray_intersect c o d).point =
        o + d * (Cube.ray_intersect c o d).distance
    ∧ (Cube.ray_intersect c o d).normal =
        face_normal ((Cube.ray_intersect c o d).point) c.cmin c.cmax := by
  simp only [Cube.ray_intersect, slab_tmin, slab_tmax] at h ⊢
  split_ifs at h ⊢ with h1 h2 h3
  all_goals first
    | exact ⟨rfl, rfl, rfl, rfl⟩
    | simp [Intersect.empty] at h

theorem ray_intersect_hit_not_miss (c : Cube) (o d : Vec3)
    (h : (Cube.ray_intersect c o d).is_intersecting = true) :
    ¬ slab_tmax c o d < 0 ∧ ¬ slab_tmin c o d > slab_tmax c o d := by
  have hm := ray_intersect_miss_iff c o d
  have hne : ¬ (Cube.ray_intersect c o d).is_intersecting = false := by
    simp [h]
  rw [hm] at hne
  exact not_or.mp hne

theorem ray_intersect_hit_nonneg (c : Cube) (o d : Vec3)
    (h : (Cube.ray_intersect c o d).is_intersecting = true) :
    0 ≤ (Cube.ray_intersect c o d).distance := by
  obtain ⟨h1, h2⟩ := ray_intersect_hit_not_miss c o d h
  rw [(ray_intersect_hit_fields c o d h).1]
  split_ifs with h3
  · exact le_of_lt h3
  · exact le_of_not_lt h1

theorem slab_axis_inside (a w b e : ℚ) (he : e ≠ 0) (h1 : a < w) (h2 : w < b) :
    min ((a - w) * (1 / e)) ((b - w) * (1 / e)) < 0 ∧
    0 < max ((a - w) * (1 / e)) ((b - w) * (1 / e)) := by
  rcases he.lt_or_lt with hneg | hpos
  · have hinv : 1 / e < 0 := one_div_neg.mpr hneg
    constructor
    · exact min_lt_iff.mpr (Or.inr (mul_neg_of_pos_of_neg (by linarith) hinv))
    · exact lt_max_iff.mpr (Or.inl (mul_pos_of_neg_of_neg (by linarith) hinv))
  · have hinv : 0 < 1 / e := one_div_pos.mpr hpos
    constructor
    · exact min_lt_iff.mpr (Or.inl (mul_neg_of_neg_of_pos (by linarith) hinv))
    · exact lt_max_iff.mpr (Or.inr (mul_pos (by linarith) hinv))

theorem slab_bounds_inside (c : Cube) (o d : Vec3)
    (hx : d.x ≠ 0) (hy : d.y ≠ 0) (hz : d.z ≠ 0)
    (ix : c.cmin.x < o.x ∧ o.x < c.cmax.x)
    (iy : c.cmin.y < o.y ∧ o.y < c.cmax.y)
    (iz : c.cmin.z < o.z ∧ o.z < c.cmax.z) :
    slab_tmin c o d < 0 ∧ 0 < slab_tmax c o d := by
  obtain ⟨hx1, hx2⟩ := slab_axis_inside c.cmin.x o.x c.cmax.x d.x hx ix.1 ix.2
  obtain ⟨hy1, hy2⟩ := slab_axis_inside c.cmin.y o.y c.cmax.y d.y hy iy.1 iy.2
  obtain ⟨hz1, hz2⟩ := slab_axis_inside c.cmin.z o.z c.cmax.z d.z hz iz.1 iz.2
  constructor
  · simp only [slab_tmin, slab_ts]
    exact max_lt (max_lt hx1 hy1) hz1
  · simp only [slab_tmax, slab_ts]
    exact lt_min (lt_min hx2 hy2) hz2

/-- C2: `ray_intersect` reports no hit exactly when the slab bounds give
`tmax < 0` or `tmin > tmax`; otherwise the hit parameter is
`tmin if tmin > 0 else tmax`, hence never negative, and a ray whose
origin lies strictly inside the box receives the exit distance `tmax`
(with `tmin < 0`), not the entry distance.  The nonzero-component
hypotheses keep the ℚ model in agreement with the source's IEEE
division. -/
theorem ray_intersect_slab_contract (c : Cube) (o d : Vec3)
    (hx : d.x ≠ 0) (hy : d.y ≠ 0) (hz : d.z ≠ 0) :
    ((Cube.ray_intersect c o d).is_intersecting = false ↔
      (slab_tmax c o d < 0 ∨ slab_tmin c o d > slab_tmax c o d))
    ∧ ((Cube.ray_intersect c o d).is_intersecting = true →
        (Cube.ray_intersect c o d).distance =
          (if slab_tmin c o d > 0 then slab_tmin c o d else slab_tmax c o d)
        ∧ 0 ≤ (Cube.ray_intersect c o d).distance)
    ∧ ((c.cmin.x < o.x ∧ o.x < c.cmax.x) →
       (c.cmin.y < o.y ∧ o.y < c.cmax.y) →
       (c.cmin.z < o.z ∧ o.z < c.cmax.z) →
        slab_tmin c o d < 0 ∧ 0 < slab_tmax c o d
        ∧ (Cube.ray_intersect c o d).is_intersecting = true
        ∧ (Cube.ray_intersect c o d).distance = slab_tmax c o d) := by
  refine ⟨ray_intersect_miss_iff c o d, ?_, ?_⟩
  · intro h
    exact ⟨(ray_intersect_hit_fields c o d h).1, ray_intersect_hit_nonneg c o d h⟩
  · intro ix iy iz
    obtain ⟨hmin, hmax⟩ := slab_bounds_inside c o d hx hy hz ix iy iz
    have hhit : (Cube.ray_intersect c o d).is_intersecting = true := by
      rcases Bool.eq_false_or_eq_true (Cube.ray_intersect c o d).is_intersecting
        with ht | hf
      · exact ht
      · rcases (ray_intersect_miss_iff c o d).mp hf with h | h
        · linarith
        · linarith
    refine ⟨hmin, hmax, hhit, ?_⟩
    rw [(ray_intersect_hit_fields c o d hhit).1, if_neg (by linarith)]

/-- Witness for C2 at a concrete cube and two concrete rays (one from
outside, one from strictly inside the box). -/
theorem ray_intersect_slab_contract_witness :
    ((Cube.ray_intersect wcube worig wdir).is_intersecting = false ↔
      (slab_tmax wcube worig wdir < 0 ∨
        slab_tmin wcube worig wdir > slab_tmax wcube worig wdir))
    ∧ ((Cube.ray_intersect wcube worig wdir).distance =
        (if slab_tmin wcube worig wdir > 0 then slab_tmin wcube worig wdir
         else slab_tmax wcube worig wdir)
       ∧ 0 ≤ (Cube.ray_intersect wcube worig wdir).distance)
    ∧ (slab_tmin wcube ⟨1/5, -1/4, 1/3⟩ wdir < 0
       ∧ 0 < slab_tmax wcube ⟨1/5, -1/4, 1/3⟩ wdir
       ∧ (Cube.ray_intersect wcube ⟨1/5, -1/4, 1/3⟩ wdir).is_intersecting = true
       ∧ (Cube.ray_intersect wcube ⟨1/5, -1/4, 1/3⟩ wdir).distance =
           slab_tmax wcube ⟨1/5, -1/4, 1/3⟩ wdir) :=
  ⟨(ray_intersect_slab_contract wcube worig wdir (by with_unfolding_all decide) (by with_unfolding_all decide)
      (by with_unfolding_all decide)).1,
   (ray_intersect_slab_contract wcube worig wdir (by with_unfolding_all decide) (by with_unfolding_all decide)
      (by with_unfolding_all decide)).2.1 (by with_unfolding_all decide),
   (ray_intersect_slab_contract wcube ⟨1/5, -1/4, 1/3⟩ wdir (by with_unfolding_all decide)
      (by with_unfolding_all decide) (by with_unfolding_all decide)).2.2 (by with_unfolding_all decide) (by with_unfolding_all decide) (by with_unfolding_all decide)⟩

theorem closest_foldl_hit (o d : Vec3) :
    ∀ (l : List Cube) (acc : Option Intersect),
      (∀ j, acc = some j → j.is_intersecting = true) →
      ∀ i, l.foldl (closest_step o d) acc = some i → i.is_intersecting = true := by
  intro l
  induction l with
  | nil =>
    intro acc hacc i hi
    simp only [List.foldl_nil] at hi
    exact hacc i hi
  | cons c l ih =>
    intro acc hacc i hi
    rw [List.foldl_cons] at hi
    refine ih (closest_step o d acc c) ?_ i hi
    intro j hj
    cases acc with
    | none =>
      simp only [closest_step] at hj
      split_ifs at hj with h
      · rw [Option.some.injEq] at hj
        rw [← hj]
        exact h
    | some j0 =>
      simp only [closest_step] at hj
      split_ifs at hj with h
      · rw [Option.some.injEq] at hj
        rw [← hj]
        exact h.1
      · rw [Option.some.injEq] at hj
        rw [← hj]
        exact hacc j0 rfl

theorem closest_foldl_min (o d : Vec3) :
    ∀ (l : List Cube) (acc : Option Intersect) (i : Intersect),
      l.foldl (closest_step o d) acc = some i →
      (∀ j, acc = some j → i.distance ≤ j.distance) ∧
      (∀ c' ∈ l, (Cube.ray_intersect c' o d).is_intersecting = true →
        i.distance ≤ (Cube.ray_intersect c' o d).distance) := by
  intro l
  induction l with
  | nil =>
    intro acc i hi
    simp only [List.foldl_nil] at hi
    refine ⟨?_, by simp⟩
    intro j hj
    rw [hi, Option.some.injEq] at hj
    rw [hj]
  | cons c l ih =>
    intro acc i hi
    rw [List.foldl_cons] at hi
    obtain ⟨h1, h2⟩ := ih (closest_step o d acc c) i hi
    constructor
    · intro j hj
      cases acc with
      | none => exact absurd hj (by simp)
      | some j0 =>
        rw [Option.some.injEq] at hj
        rw [← hj]
        simp only [closest_step] at h1
        split_ifs at h1 with h
        · exact le_trans (h1 _ rfl) (le_of_lt h.2)
        · exact h1 j0 rfl
    · intro c' hc' hhit
      rcases List.mem_cons.mp hc' with rfl | hmem
      · cases acc with
        | none =>
          simp only [closest_step] at h1
          rw [if_pos hhit] at h1
          exact h1 _ rfl
        | some j0 =>
          simp only [closest_step] at h1
          split_ifs at h1 with h
          · exact h1 _ rfl
          · have hj0 : i.distance ≤ j0.distance := h1 j0 rfl
            have hge : ¬ (Cube.ray_intersect c' o d).distance < j0.distance :=
              fun hlt => h ⟨hhit, hlt⟩
            linarith [le_of_not_lt hge]
      · exact h2 c' hmem hhit

theorem closest_foldl_first (o d : Vec3) :
    ∀ (l : List Cube) (acc : Option Intersect) (i : Intersect),
      l.foldl (closest_step o d) acc = some i →
      acc = some i ∨
      ∃ l1 c l2, l = l1 ++ c :: l2 ∧ i = Cube.ray_intersect c o d ∧
        (∀ j, acc = some j → i.distance < j.distance) ∧
        (∀ c' ∈ l1, (Cube.ray_intersect c' o d).is_intersecting = true →
          i.distance < (Cube.ray_intersect c' o d).distance) := by
  intro l
  induction l with
  | nil =>
    intro acc i hi
    simp only [List.foldl_nil] at hi
    exact Or.inl hi
  | cons c l ih =>
    intro acc i hi
    rw [List.foldl_cons] at hi
    rcases ih (closest_step o d acc c) i hi with hstep |
      ⟨l1, c2, l2, hl, hic, hlt, hbefore⟩
    · cases acc with
      | none =>
        simp only [closest_step] at hstep
        split_ifs at hstep with h
        · right
          rw [Option.some.injEq] at hstep
          exact ⟨[], c, l, rfl, hstep.symm, by simp, by simp⟩
      | some j0 =>
        simp only [closest_step] at hstep
        split_ifs at hstep with h
        · right
          rw [Option.some.injEq] at hstep
          refine ⟨[], c, l, rfl, hstep.symm, ?_, by simp⟩
          intro j hj
          rw [Option.some.injEq] at hj
          rw [← hstep, ← hj]
          exact h.2
        · exact Or.inl hstep
    · right
      refine ⟨c :: l1, c2, l2, by simp [hl], hic, ?_, ?_⟩
      · intro j hj
        cases acc with
        | none => exact absurd hj (by simp)
        | some j0 =>
          rw [Option.some.injEq] at hj
          rw [← hj]
          simp only [closest_step] at hlt
          split_ifs at hlt with h
          · exact lt_trans (hlt _ rfl) h.2
          · exact hlt j0 rfl
      · intro c' hc' hhit
        rcases List.mem_cons.mp hc' with rfl | hm
        · cases acc with
          | none =>
            simp only [closest_step] at hlt
            rw [if_pos hhit] at hlt
            exact hlt _ rfl
          | some j0 =>
            simp only [closest_step] at hlt
            split_ifs at hlt with h
            · exact hlt _ rfl
            · have hj0 : i.distance < j0.distance := hlt j0 rfl
              have hge : ¬ (Cube.ray_intersect c' o d).distance < j0.distance :=
                fun hl2 => h ⟨hhit, hl2⟩
              linarith [le_of_not_lt hge]
        · exact hbefore c' hm hhit

theorem cast_ray_skybox_of_depth (sq : ℚ → ℚ) (tm : TextureManager)
    (light : Light) (objects : List Cube) (o d : Vec3) (depth : ℕ)
    (hd : depth > 3) :
    cast_ray sq tm light objects o d depth = some SKYBOX_COLOR := by
  have h0 : 4 - depth = 0 := by omega
  rw [cast_ray, h0]
  rfl

theorem cast_ray_unfold (sq : ℚ → ℚ) (tm : TextureManager) (light : Light)
    (objects : List Cube) (o d : Vec3) (depth : ℕ) (hd : depth ≤ 3) :
    cast_ray sq tm light objects o d depth =
      match closest_hit objects o d with
      | none => some SKYBOX_COLOR
      | some i =>
        shade_body sq tm light objects o d i
          (fun o2 d2 => cast_ray sq tm light objects o2 d2 (depth + 1)) := by
  have h4 : 4 - depth = (3 - depth) + 1 := by omega
  have h5 : 4 - (depth + 1) = 3 - depth := by omega
  rw [cast_ray, h4]
  rw [show cast_ray_fuel sq tm light objects ((3 - depth) + 1) o d depth =
      (if depth > 3 then some SKYBOX_COLOR
       else match closest_hit objects o d with
         | none => some SKYBOX_COLOR
         | some i =>
           shade_body sq tm light objects o d i
             (fun o2 d2 =>
               cast_ray_fuel sq tm light objects (3 - depth) o2 d2 (depth + 1)))
    from rfl]
  rw [if_neg (by omega)]
  simp only [cast_ray, h5]

/-- C1: for every scene, ray, light and depth within the bound,
`cast_ray` linear-scans every primitive and keeps the hit with the
smallest (automatically non-negative) distance: when no primitive is
hit it returns the skybox color, and otherwise the intersection it
shades is produced by some cube of the list, is globally
distance-minimal, beats every earlier cube in scan order strictly (so a
distance tie is resolved in favor of the earlier cube), carries exactly
that cube's material, and the returned color is the shading of that
intersection. -/
theorem cast_ray_nearest_hit (sq : ℚ → ℚ) (tm : TextureManager)
    (light : Light) (objects : List Cube) (o d : Vec3) (depth : ℕ)
    (hd : depth ≤ 3) :
    (closest_hit objects o d = none →
      cast_ray sq tm light objects o d depth = some SKYBOX_COLOR)
    ∧ (∀ i, closest_hit objects o d = some i →
        i.is_intersecting = true
        ∧ 0 ≤ i.distance
        ∧ (∀ c' ∈ objects, (Cube.ray_intersect c' o d).is_intersecting = true →
            i.distance ≤ (Cube.ray_intersect c' o d).distance)
        ∧ (∃ l1 c l2, objects = l1 ++ c :: l2
            ∧ i = Cube.ray_intersect c o d
            ∧ i.material = c.material
            ∧ (∀ c' ∈ l1, (Cube.ray_intersect c' o d).is_intersecting = true →
                i.distance < (Cube.ray_intersect c' o d).distance))
        ∧ cast_ray sq tm light objects o d depth =
            shade_body sq tm light objects o d i
              (fun o2 d2 => cast_ray sq tm light objects o2 d2 (depth + 1))) := by
  constructor
  · intro hnone
    rw [cast_ray_unfold sq tm light objects o d depth hd, hnone]
  · intro i hi
    have hhit : i.is_intersecting = true :=
      closest_foldl_hit o d objects none (by simp) i hi
    have hmin := (closest_foldl_min o d objects none i hi).2
    have hfirst := closest_foldl_first o d objects none i hi
    rcases hfirst with habs | ⟨l1, c, l2, hsplit, hic, _, hbefore⟩
    · exact absurd habs (by simp)
    · have hchit : (Cube.ray_intersect c o d).is_intersecting = true := by
        rw [← hic]; exact hhit
      refine ⟨hhit, ?_, hmin, ⟨l1, c, l2, hsplit, hic, ?_, hbefore⟩, ?_⟩
      · rw [hic]
        exact ray_intersect_hit_nonneg c o d hchit
      · rw [hic]
        exact (ray_intersect_hit_fields c o d hchit).2.1
      · rw [cast_ray_unfold sq tm light objects o d depth hd, hi]

/-- Witness for C1: the single-cube scene, primary depth 0. -/
theorem cast_ray_nearest_hit_witness :
    (0 : ℕ) ≤ 3 ∧
    ((closest_hit [wcube] worig wdir = none →
        cast_ray sq0 tm_empty wlight [wcube] worig wdir 0 = some SKYBOX_COLOR)
     ∧ (∀ i, closest_hit [wcube] worig wdir = some i →
        i.is_intersecting = true
        ∧ 0 ≤ i.distance
        ∧ (∀ c' ∈ [wcube],
            (Cube.ray_intersect c' worig wdir).is_intersecting = true →
            i.distance ≤ (Cube.ray_intersect c' worig wdir).distance)
        ∧ (∃ l1 c l2, [wcube] = l1 ++ c :: l2
            ∧ i = Cube.ray_intersect c worig wdir
            ∧ i.material = c.material
            ∧ (∀ c' ∈ l1,
                (Cube.ray_intersect c' worig wdir).is_intersecting = true →
                i.distance < (Cube.ray_intersect c' worig wdir).distance))
        ∧ cast_ray sq0 tm_empty wlight [wcube] worig wdir 0 =
            shade_body sq0 tm_empty wlight [wcube] worig wdir i
              (fun o2 d2 => cast_ray sq0 tm_empty wlight [wcube] o2 d2 1))) :=
  ⟨by decide,
   cast_ray_nearest_hit sq0 tm_empty wlight [wcube] worig wdir 0 (by decide)⟩

theorem option_toList_length_le {α : Type} (x : Option α) :
    x.toList.length ≤ 1 := by
  rcases x with _ | a <;> simp

theorem child_list_length_le (sq : ℚ → ℚ) (tm : TextureManager)
    (objects : List Cube) (o d : Vec3) :
    (child_list sq tm objects o d).length ≤ 2 := by
  unfold child_list
  split
  · simp
  · split
    · simp
    · simp only [child_rays, List.length_append]
      exact le_trans
        (Nat.add_le_add (option_toList_length_le _) (option_toList_length_le _))
        (by norm_num)

theorem calls_fuel_of_lt (sq : ℚ → ℚ) (tm : TextureManager) (light : Light)
    (objects : List Cube) :
    ∀ (fuel : ℕ) (o d : Vec3) (depth lvl : ℕ), lvl < depth →
      calls_fuel sq tm light objects fuel o d depth lvl = 0 := by
  intro fuel
  induction fuel with
  | zero =>
    intro o d depth lvl h
    simp only [calls_fuel]
    rw [if_neg (by omega)]
  | succ n ih =>
    intro o d depth lvl h
    simp only [calls_fuel]
    have hz : ((child_list sq tm objects o d).map
        (fun od =>
          calls_fuel sq tm light objects n od.1 od.2 (depth + 1) lvl)).sum = 0 := by
      apply List.sum_eq_zero
      intro x hx
      obtain ⟨od, _, rfl⟩ := List.mem_map.mp hx
      exact ih od.1 od.2 (depth + 1) lvl (by omega)
    rw [if_neg (by omega), hz]
    simp

theorem calls_fuel_le (sq : ℚ → ℚ) (tm : TextureManager) (light : Light)
    (objects : List Cube) :
    ∀ (fuel : ℕ) (o d : Vec3) (depth lvl : ℕ),
      calls_fuel sq tm light objects fuel o d depth lvl ≤ 2 ^ (lvl - depth) := by
  intro fuel
  induction fuel with
  | zero =>
    intro o d depth lvl
    simp only [calls_fuel]
    split_ifs
    · exact Nat.one_le_two_pow
    · exact Nat.zero_le _
  | succ n ih =>
    intro o d depth lvl
    rcases lt_trichotomy lvl depth with hlt | heq | hgt
    · rw [calls_fuel_of_lt sq tm light objects (n + 1) o d depth lvl hlt]
      exact Nat.zero_le _
    · simp only [calls_fuel]
      rw [if_pos heq.symm]
      have hz : ((child_list sq tm objects o d).map
          (fun od =>
            calls_fuel sq tm light objects n od.1 od.2 (depth + 1) lvl)).sum = 0 := by
        apply List.sum_eq_zero
        intro x hx
        obtain ⟨od, _, rfl⟩ := List.mem_map.mp hx
        exact calls_fuel_of_lt sq tm light objects n od.1 od.2 (depth + 1) lvl
          (by omega)
      rw [hz]
      have h1 : 2 ^ (lvl - depth) = 1 := by
        rw [show lvl - depth = 0 from by omega]
        exact pow_zero 2
      rw [h1]
      split_ifs <;> simp
    · simp only [calls_fuel]
      rw [if_neg (by omega), Nat.zero_add]
      split_ifs with h3
      · exact Nat.zero_le _
      · have hb : ∀ x ∈ (child_list sq tm objects o d).map
            (fun od =>
              calls_fuel sq tm light objects n od.1 od.2 (depth + 1) lvl),
            x ≤ 2 ^ (lvl - (depth + 1)) := by
          intro x hx
          obtain ⟨od, _, rfl⟩ := List.mem_map.mp hx
          exact ih od.1 od.2 (depth + 1) lvl
        have hsum := List.sum_le_card_nsmul
          ((child_list sq tm objects o d).map
            (fun od =>
              calls_fuel sq tm light objects n od.1 od.2 (depth + 1) lvl))
          (2 ^ (lvl - (depth + 1))) hb
        have hml : ((child_list sq tm objects o d).map
            (fun od =>
              calls_fuel sq tm light objects n od.1 od.2 (depth + 1) lvl)).length ≤ 2 := by
          rw [List.length_map]
          exact child_list_length_le sq tm objects o d
        have hpow : 2 ^ (lvl - depth) = 2 * 2 ^ (lvl - (depth + 1)) := by
          rw [show lvl - depth = (lvl - (depth + 1)) + 1 from by omega, pow_succ]
          ring
        refine le_trans hsum ?_
        rw [smul_eq_mul, hpow]
        exact Nat.mul_le_mul_right _ hml

/-- C3: `cast_ray` terminates on every input.  Any call with depth
exceeding 3 returns the skybox color immediately; a hit spawns at most
two child rays, each evaluated at `depth + 1`; and the recursion tree of
a primary ray (depth 0) contains at most `2 ^ 3 = 8` rays at the deepest
traced level 3.  (Termination itself is witnessed by `cast_ray` being a
total function of its arguments.) -/
theorem cast_ray_depth_termination (sq : ℚ → ℚ) (tm : TextureManager)
    (light : Light) (objects : List Cube) (o d : Vec3) :
    (∀ depth, depth > 3 →
      cast_ray sq tm light objects o d depth = some SKYBOX_COLOR)
    ∧ (∀ (i : Intersect) (n : Vec3), (child_rays sq i d n).length ≤ 2)
    ∧ (∀ depth i, depth ≤ 3 → closest_hit objects o d = some i →
        cast_ray sq tm light objects o d depth =
          shade_body sq tm light objects o d i
            (fun o2 d2 => cast_ray sq tm light objects o2 d2 (depth + 1)))
    ∧ calls_at_level sq tm light objects o d 0 3 ≤ 8 := by
  refine ⟨?_, ?_, ?_, ?_⟩
  · intro depth hdep
    exact cast_ray_skybox_of_depth sq tm light objects o d depth hdep
  · intro i n
    rw [child_rays, List.length_append]
    have h1 : (refl_child sq i d n).toList.length ≤ 1 := by
      rcases refl_child sq i d n with _ | od <;> simp
    have h2 : (refr_child sq i d n).toList.length ≤ 1 := by
      rcases refr_child sq i d n with _ | od <;> simp
    omega
  · intro depth i hdep hi
    rw [cast_ray_unfold sq tm light objects o d depth hdep, hi]
  · have h := calls_fuel_le sq tm light objects 4 o d 0 3
    simpa [calls_at_level] using h

/-- Witness for C3: depth 4 returns the skybox, the single-cube hit at
depth 3 recurses at depth 4, children count and level-3 fan-out bounds
at the concrete scene. -/
theorem cast_ray_depth_termination_witness :
    cast_ray sq0 tm_empty wlight [wcube] worig wdir 4 = some SKYBOX_COLOR
    ∧ (child_rays sq0 (Cube.ray_intersect wcube worig wdir) wdir
        ⟨0, 1, 0⟩).length ≤ 2
    ∧ cast_ray sq0 tm_empty wlight [wcube] worig wdir 3 =
        shade_body sq0 tm_empty wlight [wcube] worig wdir
          (Cube.ray_intersect wcube worig wdir)
          (fun o2 d2 => cast_ray sq0 tm_empty wlight [wcube] o2 d2 (3 + 1))
    ∧ calls_at_level sq0 tm_empty wlight [wcube] worig wdir 0 3 ≤ 8 :=
  ⟨(cast_ray_depth_termination sq0 tm_empty wlight [wcube] worig wdir).1 4
      (by decide),
   (cast_ray_depth_termination sq0 tm_empty wlight [wcube] worig wdir).2.1 _ _,
   (cast_ray_depth_termination sq0 tm_empty wlight [wcube] worig wdir).2.2.1 3 _
      (by decide) (by with_unfolding_all decide),
   (cast_ray_depth_termination sq0 tm_empty wlight [wcube] worig wdir).2.2.2⟩

/-- C6: `cast_shadow` only ever returns 0 or 1 (never a fractional
shadow), and it returns 1 exactly when some non-emissive primitive
intersects the bias-offset ray from the hit point toward the light at a
distance strictly smaller than the light's distance; emissive primitives
are skipped, so they can never cause shadow. -/
theorem cast_shadow_binary (sq : ℚ → ℚ) (i : Intersect) (light : Light)
    (objects : List Cube) :
    (cast_shadow sq i light objects = 0 ∨ cast_shadow sq i light objects = 1)
    ∧ (cast_shadow sq i light objects = 1 ↔
        ∃ c ∈ objects, c.material.is_emissive = false ∧
          (Cube.ray_intersect c
            (offset_origin i (Vec3.normalized sq (light.position - i.point)))
            (Vec3.normalized sq (light.position - i.point))).is_intersecting
              = true ∧
          (Cube.ray_intersect c
            (offset_origin i (Vec3.normalized sq (light.position - i.point)))
            (Vec3.normalized sq (light.position - i.point))).distance <
            Vec3.length sq (light.position - i.point)) := by
  simp only [cast_shadow]
  split_ifs with h
  · refine ⟨Or.inr rfl, iff_of_true rfl ?_⟩
    rw [List.any_eq_true] at h
    obtain ⟨c, hc, hcond⟩ := h
    simp only [Bool.and_eq_true, Bool.not_eq_true', decide_eq_true_eq] at hcond
    exact ⟨c, hc, hcond.1, hcond.2.1, hcond.2.2⟩
  · refine ⟨Or.inl rfl, iff_of_false (by norm_num) ?_⟩
    rintro ⟨c, hc, hem, hhit, hdist⟩
    apply h
    rw [List.any_eq_true]
    refine ⟨c, hc, ?_⟩
    simp only [Bool.and_eq_true, Bool.not_eq_true', decide_eq_true_eq]
    exact ⟨hem, hhit, hdist⟩

/-- C4: on a hit within the depth bound, provided each shading
sub-computation and each recursive call yields a value, the color
returned by `cast_ray` is exactly
`phong*(1 - reflect_w - refract_w) + reflect_color*reflect_w +
refract_color*refract_w + emissive_gather + self_emission`, with
`reflect_w = albedo[2]` and `refract_w = albedo[3]` and with no clamping
or renormalisation whatsoever of the weights (the material is arbitrary;
the witness uses weights summing to 8/5 > 1). -/
theorem cast_ray_final_formula (sq : ℚ → ℚ) (tm : TextureManager)
    (light : Light) (objects : List Cube) (o d : Vec3) (depth : ℕ)
    (i : Intersect) (n dc se rc fc : Vec3)
    (hd : depth ≤ 3)
    (hi : closest_hit objects o d = some i)
    (hn : shading_normal sq tm i = some n)
    (hdc : diffuse_color_of tm i = some dc)
    (hse : self_emission tm i = some se)
    (hrc : recur_color (refl_child sq i d n)
        (fun o2 d2 => cast_ray sq tm light objects o2 d2 (depth + 1)) = some rc)
    (hfc : recur_color (refr_child sq i d n)
        (fun o2 d2 => cast_ray sq tm light objects o2 d2 (depth + 1)) = some fc) :
    cast_ray sq tm light objects o d depth =
      some (phong_of sq light objects o i n dc
              * (1 - i.material.albedo.a2 - i.material.albedo.a3)
            + rc * i.material.albedo.a2
            + fc * i.material.albedo.a3
            + emissive_gather sq objects i n dc
            + se) := by
  rw [cast_ray_unfold sq tm light objects o d depth hd, hi]
  simp only [shade_body, hn, hdc, hse, hrc, hfc, Option.some_bind]

/-- Witness for C4: the single-cube scene at depth 3 with material
weights `albedo[2] = albedo[3] = 4/5` (sum 8/5 > 1, not clamped); both
children run at depth 4 and return the skybox color. -/
theorem cast_ray_final_formula_witness :
    ((3 : ℕ) ≤ 3
     ∧ closest_hit [wcube] worig wdir = some (Cube.ray_intersect wcube worig wdir)
     ∧ shading_normal sq0 tm_empty (Cube.ray_intersect wcube worig wdir)
         = some ⟨0, 1, 0⟩
     ∧ diffuse_color_of tm_empty (Cube.ray_intersect wcube worig wdir)
         = some ⟨1, 1, 1⟩
     ∧ self_emission tm_empty (Cube.ray_intersect wcube worig wdir)
         = some Vec3.zero
     ∧ recur_color (refl_child sq0 (Cube.ray_intersect wcube worig wdir) wdir
          ⟨0, 1, 0⟩)
        (fun o2 d2 => cast_ray sq0 tm_empty wlight [wcube] o2 d2 (3 + 1))
         = some SKYBOX_COLOR
     ∧ recur_color (refr_child sq0 (Cube.ray_intersect wcube worig wdir) wdir
          ⟨0, 1, 0⟩)
        (fun o2 d2 => cast_ray sq0 tm_empty wlight [wcube] o2 d2 (3 + 1))
         = some SKYBOX_COLOR)
    ∧ cast_ray sq0 tm_empty wlight [wcube] worig wdir 3 =
        some (phong_of sq0 wlight [wcube] worig
                (Cube.ray_intersect wcube worig wdir) ⟨0, 1, 0⟩ ⟨1, 1, 1⟩
                * (1 - (Cube.ray_intersect wcube worig wdir).material.albedo.a2
                     - (Cube.ray_intersect wcube worig wdir).material.albedo.a3)
              + SKYBOX_COLOR
                  * (Cube.ray_intersect wcube worig wdir).material.albedo.a2
              + SKYBOX_COLOR
                  * (Cube.ray_intersect wcube worig wdir).material.albedo.a3
              + emissive_gather sq0 [wcube]
                  (Cube.ray_intersect wcube worig wdir) ⟨0, 1, 0⟩ ⟨1, 1, 1⟩
              + Vec3.zero) :=
  ⟨⟨by decide,
    by with_unfolding_all decide,
    by with_unfolding_all decide,
    by with_unfolding_all decide,
    by with_unfolding_all decide,
    by with_unfolding_all decide,
    by with_unfolding_all decide⟩,
   cast_ray_final_formula sq0 tm_empty wlight [wcube] worig wdir 3
     (Cube.ray_intersect wcube worig wdir) ⟨0, 1, 0⟩ ⟨1, 1, 1⟩ Vec3.zero
     SKYBOX_COLOR SKYBOX_COLOR
     (by decide)
     (by with_unfolding_all decide)
     (by with_unfolding_all decide)
     (by with_unfolding_all decide)
     (by with_unfolding_all decide)
     (by with_unfolding_all decide)
     (by with_unfolding_all decide)⟩

/-- C8: total internal reflection is handled, not an error.  `refract`
returns `none` exactly when the discriminant `k` is negative; the
entering/exiting side is decided by the sign of the clamped
`incident·normal`, with the refractive indices swapped and the normal
flipped when exiting; and when the refract weight is positive and
`refract` yields `none`, the refraction child of `cast_ray` is the
well-defined reflection ray (never absent, never null), evaluated — like
every child — at `depth + 1`. -/
theorem refract_tir_contract (sq : ℚ → ℚ) :
    (∀ incident normal : Vec3, ∀ ri : ℚ,
      refract sq incident normal ri = none ↔ refract_k incident normal ri < 0)
    ∧ (∀ incident normal : Vec3, ∀ ri : ℚ,
        ¬ refract_cosi incident normal > 0 →
        ¬ refract_k incident normal ri < 0 →
        refract sq incident normal ri =
          some (incident * ((1:ℚ) / ri)
                + normal * (1 / ri * -(refract_cosi incident normal)
                    - sq (refract_k incident normal ri))))
    ∧ (∀ incident normal : Vec3, ∀ ri : ℚ,
        refract_cosi incident normal > 0 →
        ¬ refract_k incident normal ri < 0 →
        refract sq incident normal ri =
          some (incident * (ri / 1)
                + (-normal) * (ri / 1 * refract_cosi incident normal
                    - sq (refract_k incident normal ri))))
    ∧ (∀ (i : Intersect) (ray_direction n : Vec3),
        i.material.albedo.a3 > 0 →
        refract sq ray_direction n i.material.refractive_index = none →
        refr_child sq i ray_direction n =
          some (offset_origin i (Vec3.normalized sq (reflect ray_direction n)),
                Vec3.normalized sq (reflect ray_direction n)))
    ∧ (∀ (tm : TextureManager) (light : Light) (objects : List Cube)
        (o d : Vec3) (depth : ℕ) (i : Intersect),
        depth ≤ 3 → closest_hit objects o d = some i →
        cast_ray sq tm light objects o d depth =
          shade_body sq tm light objects o d i
            (fun o2 d2 => cast_ray sq tm light objects o2 d2 (depth + 1))) := by
  refine ⟨?_, ?_, ?_, ?_, ?_⟩
  · intro incident normal ri
    simp only [refract, refract_k]
    split_ifs with h1 h2 h2
    · exact iff_of_true rfl h2
    · exact iff_of_false (by simp) h2
    · exact iff_of_true rfl h2
    · exact iff_of_false (by simp) h2
  · intro incident normal ri hcos hk
    simp only [refract_k] at hk
    simp only [if_neg hcos] at hk
    simp only [refract, refract_k]
    split_ifs
    all_goals first
      | rfl
      | (exact absurd (by assumption) hcos)
      | (exact absurd (by assumption) hk)
  · intro incident normal ri hcos hk
    simp only [refract_k] at hk
    simp only [if_pos hcos] at hk
    simp only [refract, refract_k]
    split_ifs
    all_goals first
      | rfl
      | (exact absurd hcos (by assumption))
      | (exact absurd (by assumption) hk)
  · intro i ray_direction n ha3 hnone
    simp only [refr_child, hnone, if_pos ha3]
  · intro tm light objects o d depth i hd hi
    rw [cast_ray_unfold sq tm light objects o d depth hd, hi]

/-- Witness for C8: the ray (2/3,-2/3,1/3) against the top face normal
(0,1,0).  With refractive index 1/2 the discriminant is -11/9 < 0
(total internal reflection) and the refraction child of the hit on
`tir_cube` is the reflection ray; with refractive index 1 both the
entering and the exiting formulas produce a refracted ray. -/
theorem refract_tir_contract_witness :
    (refract sq0 wdir ⟨0, 1, 0⟩ (1/2) = none ↔
      refract_k wdir ⟨0, 1, 0⟩ (1/2) < 0)
    ∧ refract sq0 wdir ⟨0, 1, 0⟩ 1 =
        some (wdir * ((1:ℚ) / 1)
              + (⟨0, 1, 0⟩ : Vec3) * (1 / 1 * -(refract_cosi wdir ⟨0, 1, 0⟩)
                  - sq0 (refract_k wdir ⟨0, 1, 0⟩ 1)))
    ∧ refract sq0 ⟨2/3, 2/3, 1/3⟩ ⟨0, 1, 0⟩ 1 =
        some ((⟨2/3, 2/3, 1/3⟩ : Vec3) * ((1:ℚ) / 1)
              + (-(⟨0, 1, 0⟩ : Vec3))
                  * (1 / 1 * refract_cosi ⟨2/3, 2/3, 1/3⟩ ⟨0, 1, 0⟩
                      - sq0 (refract_k ⟨2/3, 2/3, 1/3⟩ ⟨0, 1, 0⟩ 1)))
    ∧ refr_child sq0 (Cube.ray_intersect tir_cube worig wdir) wdir ⟨0, 1, 0⟩ =
        some (offset_origin (Cube.ray_intersect tir_cube worig wdir)
                (Vec3.normalized sq0 (reflect wdir ⟨0, 1, 0⟩)),
              Vec3.normalized sq0 (reflect wdir ⟨0, 1, 0⟩))
    ∧ cast_ray sq0 tm_empty wlight [tir_cube] worig wdir 3 =
        shade_body sq0 tm_empty wlight [tir_cube] worig wdir
          (Cube.ray_intersect tir_cube worig wdir)
          (fun o2 d2 => cast_ray sq0 tm_empty wlight [tir_cube] o2 d2 (3 + 1)) :=
  ⟨(refract_tir_contract sq0).1 wdir ⟨0, 1, 0⟩ (1/2),
   (refract_tir_contract sq0).2.1 wdir ⟨0, 1, 0⟩ 1
     (by with_unfolding_all decide) (by with_unfolding_all decide),
   (refract_tir_contract sq0).2.2.1 ⟨2/3, 2/3, 1/3⟩ ⟨0, 1, 0⟩ 1
     (by with_unfolding_all decide) (by with_unfolding_all decide),
   (refract_tir_contract sq0).2.2.2.1 (Cube.ray_intersect tir_cube worig wdir)
     wdir ⟨0, 1, 0⟩
     (by with_unfolding_all decide) (by with_unfolding_all decide),
   (refract_tir_contract sq0).2.2.2.2 tm_empty wlight [tir_cube] worig wdir 3
     (Cube.ray_intersect tir_cube worig wdir)
     (by decide) (by with_unfolding_all decide)⟩

theorem closest_hit_mem (objects : List Cube) (o d : Vec3) (i : Intersect)
    (hi : closest_hit objects o d = some i) :
    ∃ c ∈ objects, i.material = c.material := by
  rcases closest_foldl_first o d objects none i hi with h |
    ⟨l1, c, l2, hl, hic, _, _⟩
  · exact absurd h (by simp)
  · have hhit : (Cube.ray_intersect c o d).is_intersecting = true := by
      rw [← hic]
      exact closest_foldl_hit o d objects none (by simp) i hi
    refine ⟨c, ?_, ?_⟩
    · rw [hl]
      exact List.mem_append.mpr (Or.inr (List.mem_cons_self c l2))
    · rw [hic]
      exact (ray_intersect_hit_fields c o d hhit).2.1

/-- C9: if the nearest-hit material carries a texture or normal-map
handle that is not registered in the texture manager, the shading call
does not return a color (the `unwrap` panic, modelled as `none`) instead
of falling back to the flat material color. -/
theorem cast_ray_missing_texture (sq : ℚ → ℚ) (tm : TextureManager)
    (light : Light) (objects : List Cube) (o d : Vec3) (depth : ℕ)
    (i : Intersect) (hd : depth ≤ 3)
    (hi : closest_hit objects o d = some i) :
    (∀ p, i.material.texture_id = some p → tm.get_texture p = none →
      cast_ray sq tm light objects o d depth = none)
    ∧ (∀ p, i.material.normal_map_id = some p → tm.get_texture p = none →
      cast_ray sq tm light objects o d depth = none) := by
  constructor
  · intro p hp hmiss
    rw [cast_ray_unfold sq tm light objects o d depth hd, hi]
    have hdc : diffuse_color_of tm i = none := by
      simp only [diffuse_color_of, hp, hmiss]
    cases hsn : shading_normal sq tm i with
    | none => simp [shade_body, hsn]
    | some n => simp [shade_body, hsn, hdc]
  · intro p hp hmiss
    rw [cast_ray_unfold sq tm light objects o d depth hd, hi]
    have hsn : shading_normal sq tm i = none := by
      simp only [shading_normal, hp, hmiss]
    simp [shade_body, hsn]

/-- Witness for C9: a cube referencing texture handle `"t"` with an
empty texture manager; the shading call at depth 3 yields no color. -/
theorem cast_ray_missing_texture_witness :
    ((3 : ℕ) ≤ 3
     ∧ closest_hit [tex_cube] worig wdir
         = some (Cube.ray_intersect tex_cube worig wdir)
     ∧ (Cube.ray_intersect tex_cube worig wdir).material.texture_id = some "t"
     ∧ tm_empty.get_texture "t" = none)
    ∧ cast_ray sq0 tm_empty wlight [tex_cube] worig wdir 3 = none :=
  ⟨⟨by decide,
    by with_unfolding_all decide,
    by with_unfolding_all decide,
    by with_unfolding_all rfl⟩,
   (cast_ray_missing_texture sq0 tm_empty wlight [tex_cube] worig wdir 3
      (Cube.ray_intersect tex_cube worig wdir)
      (by decide) (by with_unfolding_all decide)).1 "t"
      (by with_unfolding_all decide) (by with_unfolding_all rfl)⟩

theorem cast_ray_fuel_isSome (sq : ℚ → ℚ) (tm : TextureManager)
    (light : Light) (objects : List Cube)
    (h : ∀ c ∈ objects,
      c.material.texture_id = none ∧ c.material.normal_map_id = none) :
    ∀ (fuel : ℕ) (o d : Vec3) (depth : ℕ),
      (cast_ray_fuel sq tm light objects fuel o d depth).isSome = true := by
  intro fuel
  induction fuel with
  | zero =>
    intro o d depth
    rfl
  | succ n ih =>
    intro o d depth
    simp only [cast_ray_fuel]
    split_ifs with h3
    · rfl
    · split
      · rfl
      · rename_i i hch
        obtain ⟨c, hc, hmat⟩ := closest_hit_mem objects o d i hch
        obtain ⟨ht, hnm⟩ := h c hc
        have ht' : i.material.texture_id = none := by rw [hmat]; exact ht
        have hnm' : i.material.normal_map_id = none := by rw [hmat]; exact hnm
        have hsn : shading_normal sq tm i = some i.normal := by
          simp only [shading_normal, hnm']
        have hdc : diffuse_color_of tm i = some i.material.diffuse := by
          simp only [diffuse_color_of, ht']
        have hse : (self_emission tm i).isSome = true := by
          simp only [self_emission, ht']
          split_ifs <;> rfl
        obtain ⟨se, hse'⟩ := Option.isSome_iff_exists.mp hse
        have hrec : ∀ (child : Option (Vec3 × Vec3)),
            (recur_color child
              (fun o2 d2 =>
                cast_ray_fuel sq tm light objects n o2 d2 (depth + 1))).isSome
              = true := by
          intro child
          rcases child with _ | od
          · rfl
          · exact ih od.1 od.2 (depth + 1)
        obtain ⟨rc, hrc⟩ := Option.isSome_iff_exists.mp
          (hrec (refl_child sq i d i.normal))
        obtain ⟨fc, hfc⟩ := Option.isSome_iff_exists.mp
          (hrec (refr_child sq i d i.normal))
        simp only [shade_body, hsn, hdc, hse', hrc, hfc, Option.some_bind]
        rfl

/-- C10: in a scene in which no cube's material references a texture or
a normal map, `cast_ray` is total (no unwrap branch is reachable, so it
always returns a color), the shading normal is the geometric normal and
the diffuse color is the flat material color. -/
theorem cast_ray_total_no_textures (sq : ℚ → ℚ) (tm : TextureManager)
    (light : Light) (objects : List Cube) (o d : Vec3) (depth : ℕ)
    (h : ∀ c ∈ objects,
      c.material.texture_id = none ∧ c.material.normal_map_id = none) :
    (cast_ray sq tm light objects o d depth).isSome = true
    ∧ (∀ i, closest_hit objects o d = some i →
        shading_normal sq tm i = some i.normal
        ∧ diffuse_color_of tm i = some i.material.diffuse) := by
  constructor
  · exact cast_ray_fuel_isSome sq tm light objects h (4 - depth) o d depth
  · intro i hi
    obtain ⟨c, hc, hmat⟩ := closest_hit_mem objects o d i hi
    obtain ⟨ht, hnm⟩ := h c hc
    have ht' : i.material.texture_id = none := by rw [hmat]; exact ht
    have hnm' : i.material.normal_map_id = none := by rw [hmat]; exact hnm
    constructor
    · simp only [shading_normal, hnm']
    · simp only [diffuse_color_of, ht']

/-- Witness for C10: the texture-free single-cube scene at depth 0. -/
theorem cast_ray_total_no_textures_witness :
    (∀ c ∈ [wcube],
      c.material.texture_id = none ∧ c.material.normal_map_id = none)
    ∧ ((cast_ray sq0 tm_empty wlight [wcube] worig wdir 0).isSome = true
       ∧ (∀ i, closest_hit [wcube] worig wdir = some i →
           shading_normal sq0 tm_empty i = some i.normal
           ∧ diffuse_color_of tm_empty i = some i.material.diffuse)) :=
  ⟨by with_unfolding_all decide,
   cast_ray_total_no_textures sq0 tm_empty wlight [wcube] worig wdir 0
     (by with_unfolding_all decide)⟩

theorem Vec3.zeroadd (a : Vec3) : Vec3.zero + a = a := by
  cases a
  simp [Vec3.add_def, Vec3.zero]

theorem foldl_shift (l : List Vec3) :
    ∀ acc : Vec3, l.foldl (· + ·) acc = acc + l.foldl (· + ·) Vec3.zero := by
  induction l with
  | nil =>
    intro acc
    simp only [List.foldl_nil]
    exact (Vec3.addzero acc).symm
  | cons v l ih =>
    intro acc
    rw [List.foldl_cons, List.foldl_cons, ih (acc + v), ih (Vec3.zero + v),
      Vec3.zeroadd, Vec3.addassoc]

theorem foldl_step_add {α : Type} (f : Vec3 → α → Vec3) (g : α → Vec3)
    (hfg : ∀ acc x, f acc x = acc + g x) (l : List α) :
    ∀ acc, l.foldl f acc = acc + (l.map g).foldl (· + ·) Vec3.zero := by
  induction l with
  | nil =>
    intro acc
    simp only [List.foldl_nil, List.map_nil]
    exact (Vec3.addzero acc).symm
  | cons x l ih =>
    intro acc
    rw [List.foldl_cons, ih, hfg, List.map_cons, List.foldl_cons,
      foldl_shift ((l.map g)) (Vec3.zero + g x), Vec3.zeroadd, Vec3.addassoc]

/-- C5 (amended): the emissive gather of `cast_ray` is the sum, over
EVERY primitive flagged emissive — the hit primitive itself included —
of `emission_color * (max 0 (normal·dir) * emission_intensity *
attenuation) * diffuse_color` with `attenuation = 1/(1 + 0.1·d²)`,
skipping primitives whose center distance `d` from the hit point is not
strictly between 0.01 and 10, and skipping those whose occlusion ray is
blocked by a non-emissive primitive strictly before them (emissive
primitives never occlude).  With an unmapped geometric normal the self
term vanishes because the outward normal faces away from the cube's own
center, but with a normal-mapped shading normal it can be nonzero — see
the counterexample. -/
theorem emissive_gather_eq_sum (sq : ℚ → ℚ) (objects : List Cube)
    (i : Intersect) (n dc : Vec3) :
    emissive_gather sq objects i n dc =
      (objects.map (emissive_term sq objects i n dc)).foldl (· + ·) Vec3.zero := by
  have hfg : ∀ (acc : Vec3) (o : Cube),
      (if o.material.is_emissive then
        let emissive_dir := Vec3.normalized sq (o.center - i.point)
        let emissive_distance := Vec3.length sq (o.center - i.point)
        if emissive_distance < 10 ∧ emissive_distance > 0.01 then
          if emissive_blocked objects (offset_origin i emissive_dir) emissive_dir
              emissive_distance then acc
          else
            let attenuation :=
              1 / (1 + 0.1 * emissive_distance * emissive_distance)
            let emissive_intensity :=
              max (n.dot emissive_dir) 0 * o.material.emission_intensity
                * attenuation
            acc + o.material.emission_color * emissive_intensity * dc
        else acc
      else acc) = acc + emissive_term sq objects i n dc o := by
    intro acc o
    simp only [emissive_term]
    split_ifs
    all_goals first
      | rfl
      | exact (Vec3.addzero acc).symm
  rw [emissive_gather, foldl_step_add _ (emissive_term sq objects i n dc) hfg
    objects Vec3.zero, Vec3.zeroadd]

/-- Counterexample to C5 as stated: the claim says the gather ranges
over every *other* emissive primitive, never the hit primitive itself.
In the one-cube scene below the hit primitive is the only primitive, so
the claimed gather is zero; but the source loop has no self-exclusion,
and with a normal map that flips the shading normal inward the code's
gather is (10/11, 10/11, 10/11) ≠ 0. -/
theorem emissive_gather_self_counterexample :
    closest_hit [em_cube] eorig edir
      = some (Cube.ray_intersect em_cube eorig edir)
    ∧ shading_normal sq0 tm_nm (Cube.ray_intersect em_cube eorig edir)
      = some ⟨0, -1, 0⟩
    ∧ diffuse_color_of tm_nm (Cube.ray_intersect em_cube eorig edir)
      = some ⟨1, 1, 1⟩
    ∧ emissive_gather sq0 [em_cube] (Cube.ray_intersect em_cube eorig edir)
        ⟨0, -1, 0⟩ ⟨1, 1, 1⟩ = ⟨10/11, 10/11, 10/11⟩
    ∧ (⟨10/11, 10/11, 10/11⟩ : Vec3) ≠ Vec3.zero := by
  refine ⟨?_, ?_, ?_, ?_, ?_⟩ <;> with_unfolding_all decide

theorem axis_exact (ox dx w : ℚ) (hdx : dx ≠ 0) :
    ox + dx * ((w - ox) * (1 / dx)) = w := by
  field_simp

theorem eq_max2 {a b x : ℚ} (h : x = max a b) : x = a ∨ x = b := by
  rcases max_choice a b with h1 | h1
  · exact Or.inl (h.trans h1)
  · exact Or.inr (h.trans h1)

theorem eq_min2 {a b x : ℚ} (h : x = min a b) : x = a ∨ x = b := by
  rcases min_choice a b with h1 | h1
  · exact Or.inl (h.trans h1)
  · exact Or.inr (h.trans h1)

theorem eq_max3 {a b c x : ℚ} (h : x = max (max a b) c) :
    x = a ∨ x = b ∨ x = c := by
  rcases eq_max2 h with h1 | h1
  · rcases eq_max2 h1 with h2 | h2
    · exact Or.inl h2
    · exact Or.inr (Or.inl h2)
  · exact Or.inr (Or.inr h1)

theorem eq_min3 {a b c x : ℚ} (h : x = min (min a b) c) :
    x = a ∨ x = b ∨ x = c := by
  rcases eq_min2 h with h1 | h1
  · rcases eq_min2 h1 with h2 | h2
    · exact Or.inl h2
    · exact Or.inr (Or.inl h2)
  · exact Or.inr (Or.inr h1)

theorem ray_intersect_face_exists (c : Cube) (o d : Vec3)
    (hx : d.x ≠ 0) (hy : d.y ≠ 0) (hz : d.z ≠ 0)
    (h : (Cube.ray_intersect c o d).is_intersecting = true) :
    ∃ k, k < 6 ∧
      face_matches ((Cube.ray_intersect c o d).point) c.cmin c.cmax k := by
  obtain ⟨hdist, hmat, hpoint, hnormal⟩ := ray_intersect_hit_fields c o d h
  have hts : (Cube.ray_intersect c o d).distance = slab_tmin c o d ∨
      (Cube.ray_intersect c o d).distance = slab_tmax c o d := by
    rw [hdist]
    split_ifs
    · exact Or.inl rfl
    · exact Or.inr rfl
  have h6 : (Cube.ray_intersect c o d).distance
        = (c.cmin.x - o.x) * (1 / d.x)
      ∨ (Cube.ray_intersect c o d).distance = (c.cmax.x - o.x) * (1 / d.x)
      ∨ (Cube.ray_intersect c o d).distance = (c.cmin.y - o.y) * (1 / d.y)
      ∨ (Cube.ray_intersect c o d).distance = (c.cmax.y - o.y) * (1 / d.y)
      ∨ (Cube.ray_intersect c o d).distance = (c.cmin.z - o.z) * (1 / d.z)
      ∨ (Cube.ray_intersect c o d).distance = (c.cmax.z - o.z) * (1 / d.z) := by
    rcases hts with h0 | h0
    · have h3 := eq_max3 (show (Cube.ray_intersect c o d).distance =
          max (max (min ((c.cmin.x - o.x) * (1 / d.x))
                        ((c.cmax.x - o.x) * (1 / d.x)))
                   (min ((c.cmin.y - o.y) * (1 / d.y))
                        ((c.cmax.y - o.y) * (1 / d.y))))
              (min ((c.cmin.z - o.z) * (1 / d.z))
                   ((c.cmax.z - o.z) * (1 / d.z))) from h0)
      rcases h3 with hq | hq | hq
      · rcases eq_min2 hq with hr | hr
        · exact Or.inl hr
        · exact Or.inr (Or.inl hr)
      · rcases eq_min2 hq with hr | hr
        · exact Or.inr (Or.inr (Or.inl hr))
        · exact Or.inr (Or.inr (Or.inr (Or.inl hr)))
      · rcases eq_min2 hq with hr | hr
        · exact Or.inr (Or.inr (Or.inr (Or.inr (Or.inl hr))))
        · exact Or.inr (Or.inr (Or.inr (Or.inr (Or.inr hr))))
    · have h3 := eq_min3 (show (Cube.ray_intersect c o d).distance =
          min (min (max ((c.cmin.x - o.x) * (1 / d.x))
                        ((c.cmax.x - o.x) * (1 / d.x)))
                   (max ((c.cmin.y - o.y) * (1 / d.y))
                        ((c.cmax.y - o.y) * (1 / d.y))))
              (max ((c.cmin.z - o.z) * (1 / d.z))
                   ((c.cmax.z - o.z) * (1 / d.z))) from h0)
      rcases h3 with hq | hq | hq
      · rcases eq_max2 hq with hr | hr
        · exact Or.inl hr
        · exact Or.inr (Or.inl hr)
      · rcases eq_max2 hq with hr | hr
        · exact Or.inr (Or.inr (Or.inl hr))
        · exact Or.inr (Or.inr (Or.inr (Or.inl hr)))
      · rcases eq_max2 hq with hr | hr
        · exact Or.inr (Or.inr (Or.inr (Or.inr (Or.inl hr))))
        · exact Or.inr (Or.inr (Or.inr (Or.inr (Or.inr hr))))
  rcases h6 with hc | hc | hc | hc | hc | hc
  · refine ⟨0, by omega, ?_⟩
    have hpx : (Cube.ray_intersect c o d).point.x = c.cmin.x := by
      rw [hpoint]
      show o.x + d.x * (Cube.ray_intersect c o d).distance = c.cmin.x
      rw [hc]
      exact axis_exact o.x d.x c.cmin.x hx
    simp only [face_matches]
    rw [hpx, sub_self, abs_zero]
    norm_num
  · refine ⟨1, by omega, ?_⟩
    have hpx : (Cube.ray_intersect c o d).point.x = c.cmax.x := by
      rw [hpoint]
      show o.x + d.x * (Cube.ray_intersect c o d).distance = c.cmax.x
      rw [hc]
      exact axis_exact o.x d.x c.cmax.x hx
    simp only [face_matches]
    rw [hpx, sub_self, abs_zero]
    norm_num
  · refine ⟨2, by omega, ?_⟩
    have hpy : (Cube.ray_intersect c o d).point.y = c.cmin.y := by
      rw [hpoint]
      show o.y + d.y * (Cube.ray_intersect c o d).distance = c.cmin.y
      rw [hc]
      exact axis_exact o.y d.y c.cmin.y hy
    simp only [face_matches]
    rw [hpy, sub_self, abs_zero]
    norm_num
  · refine ⟨3, by omega, ?_⟩
    have hpy : (Cube.ray_intersect c o d).point.y = c.cmax.y := by
      rw [hpoint]
      show o.y + d.y * (Cube.ray_intersect c o d).distance = c.cmax.y
      rw [hc]
      exact axis_exact o.y d.y c.cmax.y hy
    simp only [face_matches]
    rw [hpy, sub_self, abs_zero]
    norm_num
  · refine ⟨4, by omega, ?_⟩
    have hpz : (Cube.ray_intersect c o d).point.z = c.cmin.z := by
      rw [hpoint]
      show o.z + d.z * (Cube.ray_intersect c o d).distance = c.cmin.z
      rw [hc]
      exact axis_exact o.z d.z c.cmin.z hz
    simp only [face_matches]
    rw [hpz, sub_self, abs_zero]
    norm_num
  · refine ⟨5, by omega, ?_⟩
    have hpz : (Cube.ray_intersect c o d).point.z = c.cmax.z := by
      rw [hpoint]
      show o.z + d.z * (Cube.ray_intersect c o d).distance = c.cmax.z
      rw [hc]
      exact axis_exact o.z d.z c.cmax.z hz
    simp only [face_matches]
    rw [hpz, sub_self, abs_zero]
    norm_num

theorem face_normal_first_match (p pmin pmax : Vec3)
    (hex : ∃ k, k < 6 ∧ face_matches p pmin pmax k) :
    ∃ k, k < 6 ∧ face_matches p pmin pmax k ∧
      (∀ j < k, ¬ face_matches p pmin pmax j) ∧
      face_normal p pmin pmax = outward_face_normal k ∧
      (outward_face_normal k).dot (outward_face_normal k) = 1 := by
  by_cases h0 : |p.x - pmin.x| < 0.0001
  · refine ⟨0, by omega, h0, ?_, ?_, by norm_num [outward_face_normal, Vec3.dot]⟩
    · intro j hj
      exact absurd hj (by omega)
    · simp only [face_normal, if_pos h0]
      rfl
  · by_cases h1 : |p.x - pmax.x| < 0.0001
    · refine ⟨1, by omega, h1, ?_, ?_,
        by norm_num [outward_face_normal, Vec3.dot]⟩
      · intro j hj
        interval_cases j
        exact h0
      · simp only [face_normal, if_neg h0, if_pos h1]
        rfl
    · by_cases h2 : |p.y - pmin.y| < 0.0001
      · refine ⟨2, by omega, h2, ?_, ?_,
          by norm_num [outward_face_normal, Vec3.dot]⟩
        · intro j hj
          interval_cases j
          · exact h0
          · exact h1
        · simp only [face_normal, if_neg h0, if_neg h1, if_pos h2]
          rfl
      · by_cases h3 : |p.y - pmax.y| < 0.0001
        · refine ⟨3, by omega, h3, ?_, ?_,
            by norm_num [outward_face_normal, Vec3.dot]⟩
          · intro j hj
            interval_cases j
            · exact h0
            · exact h1
            · exact h2
          · simp only [face_normal, if_neg h0, if_neg h1, if_neg h2, if_pos h3]
            rfl
        · by_cases h4 : |p.z - pmin.z| < 0.0001
          · refine ⟨4, by omega, h4, ?_, ?_,
              by norm_num [outward_face_normal, Vec3.dot]⟩
            · intro j hj
              interval_cases j
              · exact h0
              · exact h1
              · exact h2
              · exact h3
            · simp only [face_normal, if_neg h0, if_neg h1, if_neg h2,
                if_neg h3, if_pos h4]
              rfl
          · by_cases h5 : |p.z - pmax.z| < 0.0001
            · refine ⟨5, by omega, h5, ?_, ?_,
                by norm_num [outward_face_normal, Vec3.dot]⟩
              · intro j hj
                interval_cases j
                · exact h0
                · exact h1
                · exact h2
                · exact h3
                · exact h4
              · simp only [face_normal, if_neg h0, if_neg h1, if_neg h2,
                  if_neg h3, if_neg h4, if_pos h5]
                rfl
            · exfalso
              obtain ⟨k, hk, hm⟩ := hex
              interval_cases k
              · exact h0 hm
              · exact h1 hm
              · exact h2 hm
              · exact h3 hm
              · exact h4 hm
              · exact h5 hm

/-- C7: for every hit (with nonzero direction components so that the
model matches IEEE division), the returned normal is the outward unit
normal of a face the hit point lies on within absolute tolerance 1e-4,
chosen as the FIRST matching face in the fixed check order X-min, X-max,
Y-min, Y-max, Z-min, Z-max (indices 0..5 of `face_matches`): at a true
edge or corner the earlier face in that order wins. -/
theorem ray_intersect_face_normal_contract (c : Cube) (o d : Vec3)
    (hx : d.x ≠ 0) (hy : d.y ≠ 0) (hz : d.z ≠ 0)
    (h : (Cube.ray_intersect c o d).is_intersecting = true) :
    ∃ k, k < 6 ∧
      face_matches ((Cube.ray_intersect c o d).point) c.cmin c.cmax k ∧
      (∀ j < k,
        ¬ face_matches ((Cube.ray_intersect c o d).point) c.cmin c.cmax j) ∧
      (Cube.ray_intersect c o d).normal = outward_face_normal k ∧
      ((Cube.ray_intersect c o d).normal).dot
        ((Cube.ray_intersect c o d).normal) = 1 := by
  obtain ⟨k, hk, hm, hprev, hfn, hunit⟩ :=
    face_normal_first_match ((Cube.ray_intersect c o d).point) c.cmin c.cmax
      (ray_intersect_face_exists c o d hx hy hz h)
  have hn := (ray_intersect_hit_fields c o d h).2.2.2
  refine ⟨k, hk, hm, hprev, ?_, ?_⟩
  · rw [hn]
    exact hfn
  · rw [hn, hfn]
    exact hunit

/-- Witness for C7 at the concrete outside ray hitting the top face. -/
theorem ray_intersect_face_normal_contract_witness :
    (wdir.x ≠ 0 ∧ wdir.y ≠ 0 ∧ wdir.z ≠ 0
     ∧ (Cube.ray_intersect wcube worig wdir).is_intersecting = true)
    ∧ ∃ k, k < 6 ∧
        face_matches ((Cube.ray_intersect wcube worig wdir).point)
          wcube.cmin wcube.cmax k ∧
        (∀ j < k,
          ¬ face_matches ((Cube.ray_intersect wcube worig wdir).point)
            wcube.cmin wcube.cmax j) ∧
        (Cube.ray_intersect wcube worig wdir).normal = outward_face_normal k ∧
        ((Cube.ray_intersect wcube worig wdir).normal).dot
          ((Cube.ray_intersect wcube worig wdir).normal) = 1 :=
  ⟨⟨by with_unfolding_all decide, by with_unfolding_all decide,
    by with_unfolding_all decide, by with_unfolding_all decide⟩,
   ray_intersect_face_normal_contract wcube worig wdir
     (by with_unfolding_all decide) (by with_unfolding_all decide)
     (by with_unfolding_all decide) (by with_unfolding_all decide)⟩
